import Mathlib

/-!
Verification of the active-companies scraper (src/active_companies.py).

The scraper drives a browser through a paginated company table, extracts
each rendered page's table rows into company records, and returns the
accumulated list.  This file gives a shallow embedding of that program:

* `Cell`, `Row` model a parsed table row (`row.find_all("td")`), where a
  cell carries its rendered text and, optionally, the first `<a>` element
  (`cols[1].find("a")`) with its optional `href` attribute.
* `pyStrip` models Python's `str.strip()` / `get_text(strip=True)`,
  `lastSegment` models `s.split("/")[-1]`, and `pyInt?` models `int(s)`
  on ASCII decimal literals (optional surrounding whitespace, optional
  sign, digits with single underscores between digits); `none` stands
  for a raised `ValueError`.
* `extractRow` / `extractRows` model the per-row loop body (lines
  119-146): a row with fewer than 8 cells is skipped, otherwise a
  `Record` is built; an id segment that `int` cannot parse raises.
* `Env` models the external world the run observes: whether the
  page-size dropdown appears within its wait budget, the sequence of
  rendered pages (`none` = the table wait for that page times out),
  whether the CDP fingerprint-suppression command fails, and whether
  `driver.quit()` raises.
* `get_companies` models the whole run, recording the caller-visible
  result (`Except` = returned value or surfaced exception), the driver
  instance if one was created, how many times `driver.quit()` was
  invoked, and how many complete extraction passes were performed.
-/

namespace ActiveCompanies

/-- An `<a>` element, carrying its optional `href` attribute. -/
structure Anchor where
  href : Option String
deriving Repr, DecidableEq

/-- One `<td>` cell: its rendered text content and the first `<a>`
descendant, if any (`cell.find("a")`). -/
structure Cell where
  text : String
  anchor : Option Anchor
deriving Repr, DecidableEq, Inhabited

/-- One `<tr>` row of the table body: its list of `<td>` cells. -/
structure Row where
  cells : List Cell
deriving Repr, DecidableEq, Inhabited

/-- One company record, as built at lines 133-146 of the source.
`id` is `Option Int` because the code stores `None` when no usable link
is present; all other fields are stripped display text. -/
structure Record where
  id : Option Int
  companyName : String
  symbol : String
  securityName : String
  status : String
  sectorName : String
  instrumentType : String
  companyEmail : String
  website : String
  regulatoryBody : String
deriving Repr, DecidableEq

/-- `get_regulatory_body` (line 41): constant lookup. -/
def get_regulatory_body (_sector_name : String) : String := "SEBON"

/-- Drop leading and trailing whitespace from a character list. -/
def stripChars (cs : List Char) : List Char :=
  ((cs.dropWhile Char.isWhitespace).reverse.dropWhile Char.isWhitespace).reverse

/-- Python `str.strip()`; also models `get_text(strip=True)` on a cell's
text content. -/
def pyStrip (s : String) : String := ⟨stripChars s.data⟩

/-- Characters after the last `/` (the whole input if it has no `/`):
the accumulator is reset at each separator. -/
def lastSegmentAux : List Char → List Char → List Char
  | acc, [] => acc
  | acc, c :: cs => if c = '/' then lastSegmentAux [] cs else lastSegmentAux (acc ++ [c]) cs

/-- Python `s.split("/")[-1]`: the substring after the final `/`, or all
of `s` when it contains no `/`; empty when `s` ends in `/`. -/
def lastSegment (s : String) : String := ⟨lastSegmentAux [] s.data⟩

/-- Decimal digit value of a character, if it is an ASCII digit. -/
def digitVal? (c : Char) : Option Nat :=
  if c.isDigit then some (c.toNat - '0'.toNat) else none

/-- Digits after the first one: a single `_` may separate two digits
(Python 3 numeric-literal grouping); anything else fails. -/
def pyDigitsAux : List Char → Nat → Option Nat
  | [], acc => some acc
  | '_' :: c :: cs, acc =>
    match digitVal? c with
    | some d => pyDigitsAux cs (acc * 10 + d)
    | none => none
  | ['_'], _ => none
  | c :: cs, acc =>
    match digitVal? c with
    | some d => pyDigitsAux cs (acc * 10 + d)
    | none => none

/-- A non-empty ASCII digit run, with single underscores allowed between
digits. -/
def pyDigits? : List Char → Option Nat
  | [] => none
  | c :: cs =>
    match digitVal? c with
    | some d => pyDigitsAux cs d
    | none => none

/-- Python `int(s)` on a string: strip whitespace, optional sign, ASCII
decimal digits; `none` models a raised `ValueError`. -/
def pyInt? (s : String) : Option Int :=
  match stripChars s.data with
  | '+' :: cs => (pyDigits? cs).map Int.ofNat
  | '-' :: cs => (pyDigits? cs).map (fun n => -(n : Int))
  | cs => (pyDigits? cs).map Int.ofNat

/-- `cols[i]`; the default is never reached when the row has at least
8 cells, it only keeps the accessor total. -/
def Row.cellAt (r : Row) (i : Nat) : Cell := r.cells.getD i default

/-- `cols[i].get_text(strip=True)`. -/
def Row.cellText (r : Row) (i : Nat) : String := pyStrip (r.cellAt i).text

/-- `link = cols[1].find("a")` (line 124). -/
def Row.link (r : Row) : Option Anchor := (r.cellAt 1).anchor

/-- `company_id = link["href"].split("/")[-1] if link and link.get("href")
else None` (lines 125-129): `link.get("href")` is falsy when the
attribute is absent or the empty string. -/
def Row.companyIdStr (r : Row) : Option String :=
  match r.link with
  | none => none
  | some a =>
    match a.href with
    | none => none
    | some h => if h = "" then none else some (lastSegment h)

/-- The error a row extraction can raise: `int(company_id)` raised
`ValueError` on the recorded segment. -/
inductive ExtractErr where
  | valueError (s : String)
deriving Repr, DecidableEq

/-- `int(company_id) if company_id else None` (line 135): `company_id`
is falsy when it is `None` or the empty string; a non-empty segment that
is not a decimal literal raises. -/
def Row.idValue (r : Row) : Except ExtractErr (Option Int) :=
  match r.companyIdStr with
  | none => .ok none
  | some s =>
    if s = "" then .ok none
    else
      match pyInt? s with
      | some n => .ok (some n)
      | none => .error (.valueError s)

/-- True when extracting this row cannot raise: its id segment, if any,
is empty or parses as an integer. -/
def Row.idParseOk (r : Row) : Bool :=
  match r.companyIdStr with
  | none => true
  | some s => s = "" || (pyInt? s).isSome

/-- True when the row has the minimum expected cell count, i.e. it
passes the `len(cols) < 8` skip test of line 121. -/
def Row.wellFormed (r : Row) : Bool := !decide (r.cells.length < 8)

/-- The record literal of lines 133-146, as a function of the row and
the already-computed id. -/
def Row.buildRecord (r : Row) (i : Option Int) : Record :=
  { id := i
    companyName := r.cellText 1
    symbol := r.cellText 2
    securityName := r.cellText 1
    status := r.cellText 3
    sectorName := r.cellText 4
    instrumentType := r.cellText 5
    companyEmail := r.cellText 6
    website := r.cellText 7
    regulatoryBody := get_regulatory_body (r.cellText 4) }

/-- The loop body for one row (lines 119-146): fewer than 8 cells is
skipped (`.ok none`); otherwise the record is built, raising if the id
segment cannot be parsed. -/
def extractRow (r : Row) : Except ExtractErr (Option Record) :=
  if r.cells.length < 8 then .ok none
  else
    match r.idValue with
    | .error e => .error e
    | .ok i =>
      let sector_name := r.cellText 4
      .ok (some {
        id := i
        companyName := r.cellText 1
        symbol := r.cellText 2
        securityName := r.cellText 1
        status := r.cellText 3
        sectorName := sector_name
        instrumentType := r.cellText 5
        companyEmail := r.cellText 6
        website := r.cellText 7
        regulatoryBody := get_regulatory_body sector_name })

/-- The `for row in rows` loop over one page's rows: records of the
rows that produced one, in order; the first raising row aborts the
page (the exception propagates, so the caller sees no list). -/
def extractRows : List Row → Except ExtractErr (List Record)
  | [] => .ok []
  | r :: rs =>
    match extractRow r with
    | .error e => .error e
    | .ok none => extractRows rs
    | .ok (some rec) =>
      match extractRows rs with
      | .error e => .error e
      | .ok recs => .ok (rec :: recs)

/-- One rendered page: its table-body rows and whether the
`li.pagination-next a` control is present. -/
structure Page where
  rows : List Row
  hasNext : Bool
deriving Repr, DecidableEq

/-- An exception surfaced to the caller of `get_companies`:
a `TimeoutException` that escaped, a `ValueError` from `int`, or an
exception raised by `driver.quit()` in the `finally` block. -/
inductive RunErr where
  | timeout
  | valueError (s : String)
  | quitFailure
deriving Repr, DecidableEq

/-- The external world one run observes: whether the CDP
fingerprint-suppression command fails, whether the page-size dropdown
appears within its 60s budget, the successive rendered pages (`none`
means the table wait for that page times out; an exhausted list also
times out), and whether `driver.quit()` raises. -/
structure Env where
  cdpFails : Bool
  dropdownRenders : Bool
  pages : List (Option Page)
  quitFails : Bool
deriving Repr

/-- A live browser session; records whether the fingerprint-suppression
script was installed. -/
structure Driver where
  fingerprintSuppressed : Bool
deriving Repr, DecidableEq

/-- `execute_cdp_cmd(...)` (lines 73-80): may fail. -/
def suppress_fingerprint (cdpFails : Bool) : Except String Unit :=
  if cdpFails then .error "cdp command failed" else .ok ()

/-- `init_driver` (lines 45-84): builds the driver; the CDP call is
wrapped in `try ... except Exception: pass`, so its failure is
swallowed and a driver is returned either way. -/
def init_driver (cdpFails : Bool) : Driver :=
  match suppress_fingerprint cdpFails with
  | .ok _ => { fingerprintSuppressed := true }
  | .error _ => { fingerprintSuppressed := false }

/-- The `while True` loop (lines 112-160): arguments are the pages
still to render, the accumulator `companies`, and the number of
completed extraction passes.  A table-wait timeout breaks with the
accumulator (`except TimeoutException: break`); a raising row
propagates its error; absence of the pagination control breaks after
appending (`except NoSuchElementException: break`). -/
def runLoop : List (Option Page) → List Record → Nat → Except RunErr (List Record) × Nat
  | [], acc, n => (.ok acc, n)
  | none :: _, acc, n => (.ok acc, n)
  | some pg :: rest, acc, n =>
    match extractRows pg.rows with
    | .error (.valueError s) => (.error (.valueError s), n)
    | .ok recs =>
      if pg.hasNext then runLoop rest (acc ++ recs) (n + 1)
      else (.ok (acc ++ recs), n + 1)

/-- What one call of `get_companies` did: the caller-visible result
(returned list or surfaced exception), the driver if one was created,
the number of `driver.quit()` invocations, and the number of completed
extraction passes (one per `"Scraped page N"` line). -/
structure RunOutcome where
  result : Except RunErr (List Record)
  driver : Option Driver
  quitCalls : Nat
  passes : Nat
deriving Repr

/-- `get_companies` (lines 87-166).  `pull_latest = false` returns `[]`
before any driver exists.  Otherwise the driver is created, the
page-size dropdown is awaited outside the loop's
`except TimeoutException` handler (lines 102-110), so its timeout
propagates; then the loop runs; `finally: driver.quit()` (line 166)
always runs once, and an exception it raises replaces the outcome. -/
def get_companies (pull_latest : Bool) (env : Env) : RunOutcome :=
  if !pull_latest then
    { result := .ok [], driver := none, quitCalls := 0, passes := 0 }
  else
    let d := init_driver env.cdpFails
    let body : Except RunErr (List Record) × Nat :=
      if env.dropdownRenders then runLoop env.pages [] 0
      else (.error .timeout, 0)
    let result := if env.quitFails then .error .quitFailure else body.1
    { result := result, driver := some d, quitCalls := 1, passes := body.2 }

/-- Pagination shape of claim C1: the next-page control is present on
every page but the last and absent on the last (false on `[]`: there is
at least one rendered page). -/
def nextUntilLast : List Page → Bool
  | [] => false
  | [p] => !p.hasNext
  | p :: ps => p.hasNext && nextUntilLast ps

/-- Concatenation of all pages' records in page order, when every page
extracts without raising. -/
def extractPages : List Page → Except ExtractErr (List Record)
  | [] => .ok []
  | p :: ps =>
    match extractRows p.rows, extractPages ps with
    | .ok recs, .ok rest => .ok (recs ++ rest)
    | .error e, _ => .error e
    | _, .error e => .error e

/-- JSON values, as produced by `json.dump` on the record dictionaries
(the only value shapes the program emits: null, integers, strings,
arrays, objects with ordered fields). -/
inductive Json where
  | null
  | num (n : Int)
  | str (s : String)
  | arr (elems : List Json)
  | obj (fields : List (String × Json))

/-- Serialize an optional id: `None` becomes JSON null. -/
def optIntToJson : Option Int → Json
  | none => Json.null
  | some n => Json.num n

/-- Serialization of one record, with the field order of the dict
literal at lines 133-146 (the order `json.dump` preserves). -/
def Record.toJson (r : Record) : Json :=
  Json.obj [
    ("id", optIntToJson r.id),
    ("companyName", Json.str r.companyName),
    ("symbol", Json.str r.symbol),
    ("securityName", Json.str r.securityName),
    ("status", Json.str r.status),
    ("sectorName", Json.str r.sectorName),
    ("instrumentType", Json.str r.instrumentType),
    ("companyEmail", Json.str r.companyEmail),
    ("website", Json.str r.website),
    ("regulatoryBody", Json.str r.regulatoryBody)]

/-- Read back a string field. -/
def Json.asStr? : Json → Option String
  | .str s => some s
  | _ => none

/-- Read back the id field: null parses to `none`, a number to `some`. -/
def Json.asOptInt? : Json → Option (Option Int)
  | .null => some none
  | .num n => some (some n)
  | _ => none

/-- Parse one serialized record back (the shape `json.load` hands a
consumer, field names and order as written). -/
def Record.fromJson? : Json → Option Record
  | Json.obj [
      ("id", j0),
      ("companyName", j1),
      ("symbol", j2),
      ("securityName", j3),
      ("status", j4),
      ("sectorName", j5),
      ("instrumentType", j6),
      ("companyEmail", j7),
      ("website", j8),
      ("regulatoryBody", j9)] => do
    let i ← j0.asOptInt?
    let companyName ← j1.asStr?
    let symbol ← j2.asStr?
    let securityName ← j3.asStr?
    let status ← j4.asStr?
    let sectorName ← j5.asStr?
    let instrumentType ← j6.asStr?
    let companyEmail ← j7.asStr?
    let website ← j8.asStr?
    let regulatoryBody ← j9.asStr?
    some { id := i, companyName := companyName, symbol := symbol,
           securityName := securityName, status := status,
           sectorName := sectorName, instrumentType := instrumentType,
           companyEmail := companyEmail, website := website,
           regulatoryBody := regulatoryBody }
  | _ => none

/-- The output artifact: a JSON array of serialized records. -/
def recordsToJson (rs : List Record) : Json := Json.arr (rs.map Record.toJson)

/-- Parse a list of serialized records, failing if any element fails. -/
def jsonListToRecords? : List Json → Option (List Record)
  | [] => some []
  | j :: js =>
    match Record.fromJson? j, jsonListToRecords? js with
    | some r, some rs => some (r :: rs)
    | _, _ => none

/-- Parsing the artifact back into records. -/
def recordsFromJson? : Json → Option (List Record)
  | Json.arr js => jsonListToRecords? js
  | _ => none

/-- Decidable equality for run results, so concrete runs can be checked
by evaluation. -/
instance instDecEqExcept {ε α : Type} [DecidableEq ε] [DecidableEq α] :
    DecidableEq (Except ε α) := fun a b =>
  match a, b with
  | .ok x, .ok y =>
    if h : x = y then isTrue (by rw [h]) else isFalse (fun hh => h (Except.ok.inj hh))
  | .ok _, .error _ => isFalse (fun hh => Except.noConfusion hh)
  | .error _, .ok _ => isFalse (fun hh => Except.noConfusion hh)
  | .error x, .error y =>
    if h : x = y then isTrue (by rw [h]) else isFalse (fun hh => h (Except.error.inj hh))

/-! Concrete inputs used by witnesses and counterexamples. -/

/-- A well-formed cell: display text plus a company-detail link. -/
def goodCell : Cell :=
  { text := "Nabil Bank Limited",
    anchor := some { href := some "https://nepalstock.com/company/482" } }

/-- A well-formed row: 8 cells, each carrying the detail link. -/
def goodRow : Row := { cells := List.replicate 8 goodCell }

/-- The record `extractRow` produces from `goodRow`. -/
def goodRec : Record :=
  { id := some 482, companyName := "Nabil Bank Limited", symbol := "Nabil Bank Limited",
    securityName := "Nabil Bank Limited", status := "Nabil Bank Limited",
    sectorName := "Nabil Bank Limited", instrumentType := "Nabil Bank Limited",
    companyEmail := "Nabil Bank Limited", website := "Nabil Bank Limited",
    regulatoryBody := "SEBON" }

/-- A row whose name cell has no anchor at all. -/
def noAnchorRow : Row := { cells := List.replicate 8 { text := "y", anchor := none } }

/-- The record `extractRow` produces from `noAnchorRow`. -/
def noAnchorRec : Record :=
  { id := none, companyName := "y", symbol := "y", securityName := "y", status := "y",
    sectorName := "y", instrumentType := "y", companyEmail := "y", website := "y",
    regulatoryBody := "SEBON" }

/-- A row with 8 cells whose link's last path segment is not numeric:
`int("abc")` raises `ValueError`. -/
def badRow : Row :=
  { cells := List.replicate 8 { text := "x", anchor := some { href := some "abc" } } }

/-- A malformed row: only 2 cells. -/
def shortRow : Row :=
  { cells := [{ text := "Company", anchor := none }, { text := "Symbol", anchor := none }] }

/-- A row whose link's href ends in a slash: the last path segment is
the empty string. -/
def emptySegRow : Row :=
  { cells := List.replicate 8
      { text := "z", anchor := some { href := some "https://nepalstock.com/company/" } } }

/-- Rendered page 1: a good row and a malformed row, with a next-page
control. -/
def pageOne : Page := { rows := [goodRow, shortRow], hasNext := true }

/-- Rendered page 2: one row, no next-page control. -/
def pageTwo : Page := { rows := [noAnchorRow], hasNext := false }

/-- A final page containing the raising row. -/
def badPage : Page := { rows := [badRow], hasNext := false }

/-- A normal two-page run. -/
def okEnv : Env :=
  { cdpFails := false, dropdownRenders := true, pages := [pageOne, pageTwo].map some,
    quitFails := false }

/-- A run whose only page contains the raising row. -/
def badRunEnv : Env :=
  { cdpFails := false, dropdownRenders := true, pages := [badPage].map some,
    quitFails := false }

/-- A run where the page-size dropdown never appears. -/
def noDropEnv : Env :=
  { cdpFails := false, dropdownRenders := false, pages := [pageOne].map some,
    quitFails := false }

/-- A run where `driver.quit()` raises. -/
def quitFailEnv : Env :=
  { cdpFails := false, dropdownRenders := true, pages := [pageTwo].map some,
    quitFails := true }

/-- A run where page 1 renders but the table wait on page 2 times out. -/
def timeoutPage2Env : Env :=
  { cdpFails := false, dropdownRenders := true, pages := [some pageOne, none],
    quitFails := false }

/-- A healthy environment rendering the given page sequence. -/
def runEnv (pgs : List (Option Page)) : Env :=
  { cdpFails := false, dropdownRenders := true, pages := pgs, quitFails := false }

/-- An environment whose page-size dropdown wait times out. -/
def dropTimeoutEnv : Env :=
  { cdpFails := false, dropdownRenders := false, pages := [], quitFails := false }

/-! Helper lemmas about row extraction. -/

/-- A row with fewer than 8 cells is skipped. -/
theorem extractRow_of_short (r : Row) (h : r.cells.length < 8) :
    extractRow r = .ok none := by
  simp [extractRow, h]

/-- When the id segment is absent, empty, or numeric, the id computation
does not raise. -/
theorem idValue_ok_of_idParseOk (r : Row) (h : r.idParseOk = true) :
    ∃ i, r.idValue = .ok i := by
  unfold Row.idParseOk at h
  unfold Row.idValue
  cases hc : r.companyIdStr with
  | none => exact ⟨none, rfl⟩
  | some s =>
    rw [hc] at h
    by_cases hs : s = ""
    · exact ⟨none, by simp [hs]⟩
    · simp [hs] at h
      cases hp : pyInt? s with
      | none => rw [hp] at h; simp at h
      | some n => exact ⟨some n, by simp [hs, hp]⟩

/-- On a row with at least 8 cells whose id computation yields `i`,
extraction produces exactly the record literal. -/
theorem extractRow_eq_build (r : Row) (i : Option Int) (h8 : ¬ r.cells.length < 8)
    (hi : r.idValue = .ok i) : extractRow r = .ok (some (r.buildRecord i)) := by
  unfold extractRow
  rw [if_neg h8, hi]
  rfl

/-- A row with at least 8 cells and a parseable (or absent) id segment
produces a record. -/
theorem extractRow_ok_of_idParseOk (r : Row) (h8 : ¬ r.cells.length < 8)
    (h : r.idParseOk = true) : ∃ rec, extractRow r = .ok (some rec) := by
  obtain ⟨i, hi⟩ := idValue_ok_of_idParseOk r h
  exact ⟨r.buildRecord i, extractRow_eq_build r i h8 hi⟩

/-- C3: as stated, the claim quantifies over any cell and anchor
content; it fails on `badRow`, whose 8-cell row has an anchor href whose
last segment `int` cannot parse, so extraction raises past the row
boundary.  This theorem proves the amended claim: extraction of a row
yields a record or a skip, never an error, whenever the row's id
segment (if present) is empty or parses as an integer. -/
theorem claimC3_row_never_raises (r : Row) (h : r.idParseOk = true) :
    ∃ o, extractRow r = .ok o := by
  by_cases h8 : r.cells.length < 8
  · exact ⟨none, extractRow_of_short r h8⟩
  · obtain ⟨rec, hrec⟩ := extractRow_ok_of_idParseOk r h8 h
    exact ⟨some rec, hrec⟩

/-- C3 witness: the amended theorem applied to `goodRow`. -/
theorem claimC3_row_never_raises_witness : ∃ o, extractRow goodRow = .ok o :=
  claimC3_row_never_raises goodRow (by decide)

/-- C3 counterexample: a single malformed row (8 cells, anchor href
`abc`) aborts the page's extraction with a `ValueError` instead of
degrading to a skip or a record. -/
theorem claimC3_row_never_raises_cex :
    extractRow badRow = .error (.valueError "abc") := rfl

/-- C4: as stated, the claim quantifies over any page snapshot; it
fails when a row with at least 8 cells carries an id segment `int`
cannot parse (`badRow`), because extraction of the whole page then
raises instead of yielding N records.  This theorem proves the amended
claim: provided every row's id segment (when present and non-empty)
parses as an integer, a page with N rows of at least 8 cells and M
rows of fewer yields exactly N records; each row with fewer than 8
cells is skipped, contributes no record, and causes no failure. -/
theorem claimC4_malformed_rows_skipped (rows : List Row)
    (h : ∀ r ∈ rows, r.idParseOk = true) :
    ∃ recs, extractRows rows = .ok recs ∧
      recs.length = rows.countP Row.wellFormed := by
  induction rows with
  | nil => exact ⟨[], rfl, rfl⟩
  | cons r rs ih =>
    obtain ⟨recs, hrecs, hlen⟩ := ih (fun x hx => h x (List.mem_cons_of_mem _ hx))
    have hr := h r (List.mem_cons_self _ _)
    by_cases h8 : r.cells.length < 8
    · refine ⟨recs, ?_, ?_⟩
      · simp [extractRows, extractRow_of_short r h8, hrecs]
      · rw [hlen, List.countP_cons]
        simp [Row.wellFormed, h8]
    · obtain ⟨i, hi⟩ := idValue_ok_of_idParseOk r hr
      refine ⟨r.buildRecord i :: recs, ?_, ?_⟩
      · simp [extractRows, extractRow_eq_build r i h8 hi, hrecs]
      · rw [List.countP_cons]
        simp [Row.wellFormed, h8, hlen]

/-- C4 witness: a page with two well-formed rows and one malformed row
yields exactly two records. -/
theorem claimC4_malformed_rows_skipped_witness :
    ∃ recs, extractRows [goodRow, shortRow, noAnchorRow] = .ok recs ∧
      recs.length = List.countP Row.wellFormed [goodRow, shortRow, noAnchorRow] :=
  claimC4_malformed_rows_skipped [goodRow, shortRow, noAnchorRow] (by decide)

/-- C4 counterexample: the page `[badRow]` has N = 1 rows with at least
8 cells and M = 0 malformed rows, yet extraction raises a `ValueError`
instead of yielding exactly 1 record. -/
theorem claimC4_malformed_rows_skipped_cex :
    List.countP Row.wellFormed [badRow] = 1 ∧
    extractRows [badRow] = .error (.valueError "abc") :=
  ⟨by decide, rfl⟩

/-- C8: `get_companies False` returns the empty list immediately: no
driver is created, the session is never closed because none was opened,
and no extraction pass runs. -/
theorem claimC8_disabled_fetch (env : Env) :
    (get_companies false env).result = .ok [] ∧
    (get_companies false env).driver = none ∧
    (get_companies false env).quitCalls = 0 ∧
    (get_companies false env).passes = 0 :=
  ⟨rfl, rfl, rfl, rfl⟩

/-- C10: a name-cell anchor whose href's last path segment is empty
(for example an href ending in `/`) produces a record whose id is null,
exactly like an absent href: the empty segment is falsy in the
`int(company_id) if company_id else None` conditional. -/
theorem claimC10_empty_last_segment (r : Row) (h : String)
    (h8 : 8 ≤ r.cells.length)
    (hlink : r.link = some { href := some h })
    (hseg : lastSegment h = "") :
    ∃ rec, extractRow r = .ok (some rec) ∧ rec.id = none := by
  have hiv : r.idValue = .ok none := by
    unfold Row.idValue Row.companyIdStr
    rw [hlink]
    by_cases hh : h = ""
    · simp [hh]
    · simp [hh, hseg]
  exact ⟨r.buildRecord none, extractRow_eq_build r none (by omega) hiv, rfl⟩

/-- C10 witness: the theorem applied to `emptySegRow`, whose href ends
in a slash. -/
theorem claimC10_empty_last_segment_witness :
    ∃ rec, extractRow emptySegRow = .ok (some rec) ∧ rec.id = none :=
  claimC10_empty_last_segment emptySegRow "https://nepalstock.com/company/"
    (by decide) (by decide) (by decide)

/-- Taking the last segment distributes over list concatenation: the
second half restarts from whatever accumulator the first half left. -/
theorem lastSegmentAux_append (acc xs ys : List Char) :
    lastSegmentAux acc (xs ++ ys) = lastSegmentAux (lastSegmentAux acc xs) ys := by
  induction xs generalizing acc with
  | nil => rfl
  | cons c cs ih =>
    by_cases hc : c = '/' <;> simp [lastSegmentAux, hc, ih]

/-- After any accumulator, the characters after the last slash of
`/company/482` are `482`. -/
theorem lastSegmentAux_company (acc : List Char) :
    lastSegmentAux acc ("/company/482").data = ("482").data := rfl

/-- The last path segment of any href ending in `/company/482`. -/
theorem lastSegment_company (pre : String) :
    lastSegment (pre ++ "/company/482") = "482" := by
  show String.mk (lastSegmentAux [] ((pre ++ "/company/482").data)) = "482"
  rw [show (pre ++ "/company/482").data = pre.data ++ ("/company/482").data from rfl]
  rw [lastSegmentAux_append]
  rw [lastSegmentAux_company]

/-- A string extended by `/company/482` is not empty. -/
theorem append_company_ne_empty (pre : String) : pre ++ "/company/482" ≠ "" := by
  intro hcon
  have hdata : pre.data ++ ("/company/482").data = ([] : List Char) :=
    congrArg String.data hcon
  rw [show ("/company/482").data = '/' :: ("company/482").data from rfl] at hdata
  simp at hdata

/-- The id computation can only return null or an integer `int`
actually parsed from the link's last path segment. -/
theorem idValue_cases (r : Row) (i : Option Int) (h : r.idValue = .ok i) :
    i = none ∨ ∃ s n, r.companyIdStr = some s ∧ pyInt? s = some n ∧ i = some n := by
  unfold Row.idValue at h
  cases hcs : r.companyIdStr with
  | none =>
    rw [hcs] at h
    exact Or.inl (Except.ok.inj h).symm
  | some s =>
    rw [hcs] at h
    by_cases hs : s = ""
    · simp [hs] at h
      exact Or.inl h.symm
    · simp [hs] at h
      cases hp : pyInt? s with
      | none => rw [hp] at h; simp at h
      | some n =>
        rw [hp] at h
        simp at h
        exact Or.inr ⟨s, n, rfl, hp, h.symm⟩

/-- C5: id parsing.  First, an href ending in `/company/482` in the
name cell of a row with at least 8 cells yields a record with id 482.
Second, a missing anchor or an anchor without href yields a record with
null id.  Third, every record actually produced carries either a null
id or an integer obtained by a successful `int` parse of the link's
last path segment — never a non-numeric string. -/
theorem claimC5_id_parsing :
    (∀ (r : Row) (pre h : String), 8 ≤ r.cells.length →
        r.link = some { href := some h } → h = pre ++ "/company/482" →
        ∃ rec, extractRow r = .ok (some rec) ∧ rec.id = some 482) ∧
    (∀ r : Row, 8 ≤ r.cells.length →
        (r.link = none ∨ r.link = some { href := none }) →
        ∃ rec, extractRow r = .ok (some rec) ∧ rec.id = none) ∧
    (∀ (r : Row) (rec : Record), extractRow r = .ok (some rec) →
        rec.id = none ∨
          ∃ s n, r.companyIdStr = some s ∧ pyInt? s = some n ∧ rec.id = some n) := by
  refine ⟨?_, ?_, ?_⟩
  · intro r pre h h8 hlink hpre
    have hne : h ≠ "" := by rw [hpre]; exact append_company_ne_empty pre
    have hseg : lastSegment h = "482" := by rw [hpre]; exact lastSegment_company pre
    have hid : r.companyIdStr = some "482" := by
      unfold Row.companyIdStr
      rw [hlink]
      simp [hne, hseg]
    have hiv : r.idValue = .ok (some 482) := by
      unfold Row.idValue
      rw [hid]
      rfl
    exact ⟨r.buildRecord (some 482), extractRow_eq_build r _ (by omega) hiv, rfl⟩
  · intro r h8 hl
    have hid : r.companyIdStr = none := by
      unfold Row.companyIdStr
      rcases hl with h1 | h1 <;> rw [h1]
    have hiv : r.idValue = .ok none := by
      unfold Row.idValue
      rw [hid]
    exact ⟨r.buildRecord none, extractRow_eq_build r none (by omega) hiv, rfl⟩
  · intro r rec hx
    unfold extractRow at hx
    by_cases h8 : r.cells.length < 8
    · rw [if_pos h8] at hx
      simp at hx
    · rw [if_neg h8] at hx
      cases hiv : r.idValue with
      | error e => rw [hiv] at hx; simp at hx
      | ok i =>
        rw [hiv] at hx
        have h1 : Row.buildRecord r i = rec := Option.some.inj (Except.ok.inj hx)
        have hreci : rec.id = i := by rw [← h1]; rfl
        rcases idValue_cases r i hiv with hnone | ⟨s, n, hcs, hp, hin⟩
        · exact Or.inl (by rw [hreci, hnone])
        · exact Or.inr ⟨s, n, hcs, hp, by rw [hreci, hin]⟩

/-- C5 witness: the first part applied to `goodRow` (href ending in
`/company/482`), the second to `noAnchorRow`. -/
theorem claimC5_id_parsing_witness :
    (∃ rec, extractRow goodRow = .ok (some rec) ∧ rec.id = some 482) ∧
    (∃ rec, extractRow noAnchorRow = .ok (some rec) ∧ rec.id = none) :=
  ⟨claimC5_id_parsing.1 goodRow "https://nepalstock.com"
      "https://nepalstock.com/company/482" (by decide) (by decide) (by decide),
   claimC5_id_parsing.2.1 noAnchorRow (by decide) (Or.inl (by decide))⟩

/-- C6: for a row with exactly 8 cells that produces a record, the
record's string fields equal the cells' stripped text in the documented
position mapping: companyName and securityName from cell 1, symbol from
cell 2, status from cell 3, sectorName from cell 4, instrumentType from
cell 5, companyEmail from cell 6, website from cell 7; and
regulatoryBody is the lookup result for sectorName. -/
theorem claimC6_field_mapping (r : Row) (rec : Record)
    (h8 : r.cells.length = 8) (hx : extractRow r = .ok (some rec)) :
    rec.companyName = pyStrip (r.cellAt 1).text ∧
    rec.symbol = pyStrip (r.cellAt 2).text ∧
    rec.securityName = rec.companyName ∧
    rec.status = pyStrip (r.cellAt 3).text ∧
    rec.sectorName = pyStrip (r.cellAt 4).text ∧
    rec.instrumentType = pyStrip (r.cellAt 5).text ∧
    rec.companyEmail = pyStrip (r.cellAt 6).text ∧
    rec.website = pyStrip (r.cellAt 7).text ∧
    rec.regulatoryBody = get_regulatory_body rec.sectorName := by
  unfold extractRow at hx
  rw [if_neg (by omega)] at hx
  cases hiv : r.idValue with
  | error e => rw [hiv] at hx; simp at hx
  | ok i =>
    rw [hiv] at hx
    have h1 : Row.buildRecord r i = rec := Option.some.inj (Except.ok.inj hx)
    subst h1
    exact ⟨rfl, rfl, rfl, rfl, rfl, rfl, rfl, rfl, rfl⟩

/-- C6 witness: the theorem applied to `goodRow` and the record it
produces. -/
theorem claimC6_field_mapping_witness :
    goodRec.companyName = pyStrip (goodRow.cellAt 1).text ∧
    goodRec.symbol = pyStrip (goodRow.cellAt 2).text ∧
    goodRec.securityName = goodRec.companyName ∧
    goodRec.status = pyStrip (goodRow.cellAt 3).text ∧
    goodRec.sectorName = pyStrip (goodRow.cellAt 4).text ∧
    goodRec.instrumentType = pyStrip (goodRow.cellAt 5).text ∧
    goodRec.companyEmail = pyStrip (goodRow.cellAt 6).text ∧
    goodRec.website = pyStrip (goodRow.cellAt 7).text ∧
    goodRec.regulatoryBody = get_regulatory_body goodRec.sectorName :=
  claimC6_field_mapping goodRow goodRec (by decide) (by rfl)

/-- Unfolding lemma: extracting no pages yields no records. -/
theorem extractPages_nil : extractPages [] = .ok [] := rfl

/-- Unfolding lemma for `extractPages` on a non-empty page sequence. -/
theorem extractPages_cons (p : Page) (ps : List Page) :
    extractPages (p :: ps) =
      match extractRows p.rows, extractPages ps with
      | .ok recs, .ok rest => .ok (recs ++ rest)
      | .error e, _ => .error e
      | _, .error e => .error e := rfl

/-- When the rendered pages have the C1 shape (next-page control on all
but the last) and every page extracts cleanly, the loop visits each
page exactly once and appends its records in order. -/
theorem runLoop_of_shape : ∀ (ps : List Page) (acc : List Record) (n : Nat)
    (allRecs : List Record), nextUntilLast ps = true →
    extractPages ps = .ok allRecs →
    runLoop (ps.map some) acc n = (.ok (acc ++ allRecs), n + ps.length)
  | [], _, _, _, h, _ => by simp [nextUntilLast] at h
  | [p], acc, n, allRecs, h, hx => by
    have hn : p.hasNext = false := by simpa [nextUntilLast] using h
    cases he : extractRows p.rows with
    | error e =>
      rw [extractPages_cons, he, extractPages_nil] at hx
      simp at hx
    | ok recs =>
      rw [extractPages_cons, he, extractPages_nil] at hx
      simp at hx
      subst hx
      simp [runLoop, he, hn]
  | p :: q :: ps, acc, n, allRecs, h, hx => by
    have h12 : p.hasNext = true ∧ nextUntilLast (q :: ps) = true := by
      simpa [nextUntilLast] using h
    cases he : extractRows p.rows with
    | error e =>
      rw [extractPages_cons, he] at hx
      simp at hx
    | ok recs =>
      cases hrest : extractPages (q :: ps) with
      | error e =>
        rw [extractPages_cons, he, hrest] at hx
        simp at hx
      | ok rest =>
        have ih := runLoop_of_shape (q :: ps) (acc ++ recs) (n + 1) rest h12.2 hrest
        rw [extractPages_cons, he, hrest] at hx
        simp at hx
        subst hx
        simp only [List.map_cons] at ih ⊢
        rw [show runLoop (some p :: some q :: List.map some ps) acc n =
              runLoop (some q :: List.map some ps) (acc ++ recs) (n + 1) from by
            simp [runLoop, he, h12.1]]
        rw [ih]
        simp [Prod.mk.injEq, List.append_assoc]
        all_goals omega

/-- C1: as stated, the claim quantifies over every sequence of rendered
pages; it fails when some page contains a row whose id segment `int`
cannot parse (`badPage`), because the run then raises a `ValueError`
instead of returning records and performs fewer extraction passes.
This theorem proves the amended claim: provided every page's rows
extract without error, a run over pages 1..K with the next-page control
present on pages 1..K-1 and absent on page K performs exactly K
extraction passes and returns the concatenation of all pages' records
in page order. -/
theorem claimC1_pagination (ps : List Page) (allRecs : List Record)
    (hshape : nextUntilLast ps = true)
    (hx : extractPages ps = .ok allRecs) :
    (get_companies true (runEnv (ps.map some))).result = .ok allRecs ∧
    (get_companies true (runEnv (ps.map some))).passes = ps.length := by
  have h := runLoop_of_shape ps [] 0 allRecs hshape hx
  constructor <;> simp [get_companies, runEnv, h]

/-- C1 witness: a two-page run returns both pages' records in order
with exactly 2 extraction passes. -/
theorem claimC1_pagination_witness :
    (get_companies true okEnv).result = .ok [goodRec, noAnchorRec] ∧
    (get_companies true okEnv).passes = 2 :=
  claimC1_pagination [pageOne, pageTwo] [goodRec, noAnchorRec] (by decide) (by rfl)

/-- C1 counterexample: a K = 1 sequence whose page holds `badRow`; the
run performs 0 extraction passes, not 1, and surfaces a `ValueError`
instead of returning the page's records. -/
theorem claimC1_pagination_cex :
    nextUntilLast [badPage] = true ∧
    (get_companies true badRunEnv).passes = 0 ∧
    (get_companies true badRunEnv).result = .error (.valueError "abc") :=
  ⟨by decide, rfl, rfl⟩

/-- When every page before the timeout extracts cleanly and carries a
next-page control, the loop walks them all, then the table wait times
out and breaks with the records accumulated so far. -/
theorem runLoop_timeout : ∀ (ps : List Page) (acc : List Record) (n : Nat)
    (allRecs : List Record) (rest : List (Option Page)),
    (∀ p ∈ ps, p.hasNext = true) →
    extractPages ps = .ok allRecs →
    runLoop (ps.map some ++ none :: rest) acc n = (.ok (acc ++ allRecs), n + ps.length)
  | [], acc, n, allRecs, rest, _, hx => by
    rw [extractPages_nil] at hx
    simp at hx
    subst hx
    simp [runLoop]
  | p :: ps, acc, n, allRecs, rest, hnext, hx => by
    cases he : extractRows p.rows with
    | error e =>
      rw [extractPages_cons, he] at hx
      simp at hx
    | ok recs =>
      cases hrest : extractPages ps with
      | error e =>
        rw [extractPages_cons, he, hrest] at hx
        simp at hx
      | ok tl =>
        have ih := runLoop_timeout ps (acc ++ recs) (n + 1) tl rest
          (fun q hq => hnext q (List.mem_cons_of_mem _ hq)) hrest
        rw [extractPages_cons, he, hrest] at hx
        simp at hx
        subst hx
        have hp := hnext p (List.mem_cons_self _ _)
        simp only [List.map_cons, List.cons_append]
        rw [show runLoop (some p :: (ps.map some ++ none :: rest)) acc n =
              runLoop (ps.map some ++ none :: rest) (acc ++ recs) (n + 1) from by
            simp [runLoop, he, hp]]
        rw [ih]
        simp [Prod.mk.injEq, List.append_assoc]
        all_goals omega

/-- C2: as stated, the claim covers the page-size dropdown wait; it
fails there, because that wait sits outside the loop's
`except TimeoutException` handler, so its timeout propagates to the
caller.  This theorem proves the amended claim: once the dropdown has
rendered, a table-wait timeout on any page makes the run return
exactly the records accumulated from the cleanly extracted pages
before it — a timeout on page 1 returns the empty list, a timeout on
page k returns the concatenation of pages 1..k-1, and in particular a
timeout on page 2 returns exactly page 1's records — while a timeout
of the dropdown wait itself surfaces a TimeoutException. -/
theorem claimC2_timeout_partial (ps : List Page) (allRecs : List Record)
    (rest : List (Option Page))
    (hnext : ∀ p ∈ ps, p.hasNext = true)
    (hx : extractPages ps = .ok allRecs) :
    (get_companies true (runEnv (ps.map some ++ none :: rest))).result = .ok allRecs ∧
    (get_companies true dropTimeoutEnv).result = .error .timeout := by
  have h := runLoop_timeout ps [] 0 allRecs rest hnext hx
  constructor
  · simp [get_companies, runEnv, h]
  · rfl

/-- C2 witness: page 1 renders and extracts, the table wait on page 2
times out, and exactly page 1's records come back. -/
theorem claimC2_timeout_partial_witness :
    (get_companies true timeoutPage2Env).result = .ok [goodRec] ∧
    (get_companies true dropTimeoutEnv).result = .error .timeout :=
  claimC2_timeout_partial [pageOne] [goodRec] [] (by decide) (by rfl)

/-- C2 counterexample: when the page-size dropdown wait times out, the
run does not return the (empty) accumulated records — the
TimeoutException surfaces to the caller. -/
theorem claimC2_timeout_partial_cex :
    (get_companies true noDropEnv).result = .error .timeout ∧
    (get_companies true noDropEnv).result ≠ .ok [] :=
  ⟨rfl, by decide⟩

/-- C7: as stated, the claim asserts that failures while closing the
session are swallowed; that fails, because `driver.quit()` in the
`finally` block is unguarded, so its exception replaces the run's
outcome.  This theorem proves the amended claim: once a session is
opened the close is invoked exactly once on every exit path, no session
is touched when fetching is disabled, and a failure of the
fingerprint-suppression CDP command is swallowed — it changes neither
the result, nor the teardown count, nor the number of passes. -/
theorem claimC7_teardown :
    (∀ env : Env, (get_companies true env).quitCalls = 1) ∧
    (∀ env : Env, (get_companies false env).quitCalls = 0) ∧
    (∀ (pl : Bool) (env : Env),
        (get_companies pl { env with cdpFails := true }).result =
          (get_companies pl { env with cdpFails := false }).result ∧
        (get_companies pl { env with cdpFails := true }).quitCalls =
          (get_companies pl { env with cdpFails := false }).quitCalls ∧
        (get_companies pl { env with cdpFails := true }).passes =
          (get_companies pl { env with cdpFails := false }).passes) := by
  refine ⟨fun env => rfl, fun env => rfl, fun pl env => ?_⟩
  cases pl
  · exact ⟨rfl, rfl, rfl⟩
  · exact ⟨rfl, rfl, rfl⟩

/-- C7 counterexample: when `driver.quit()` raises, the failure is not
swallowed — it aborts the run instead of letting it return the page's
records. -/
theorem claimC7_teardown_cex :
    (get_companies true quitFailEnv).result = .error .quitFailure ∧
    (get_companies true quitFailEnv).result ≠ .ok [noAnchorRec] :=
  ⟨rfl, by decide⟩

/-- Round trip of a single serialized record, null id included. -/
theorem fromJson_toJson (r : Record) : Record.fromJson? r.toJson = some r := by
  cases r with
  | mk id companyName symbol securityName status sectorName instrumentType
      companyEmail website regulatoryBody =>
    cases id <;> rfl

/-- C9: serializing a record sequence as a JSON array (field names and
order as written by the program) and parsing it back yields
field-for-field equal records; a null id round-trips because both
branches of the id encoding are injectively decoded. -/
theorem claimC9_roundtrip (rs : List Record) :
    recordsFromJson? (recordsToJson rs) = some rs := by
  induction rs with
  | nil => rfl
  | cons r rs ih =>
    have ih' : jsonListToRecords? (rs.map Record.toJson) = some rs := ih
    simp [recordsToJson, recordsFromJson?, jsonListToRecords?, fromJson_toJson, ih']

end ActiveCompanies
